import Mathlib

/-!
Verification of the CSV-import progress widget
(`src/lib/components/csvImportBox.svelte`).

The component keeps an insertion-ordered map from migration id to an
`ImportItem = { status, collection? }`, reconciles incoming migration events
into it (`updateOrAddItem`), fires a completion notification for terminal
statuses (`showCompletionNotification`), and renders progress
(`graphSize`, `text`).  The definitions below are a shallow embedding of
that code: JavaScript `Map` becomes an insertion-ordered association list,
`undefined`/`null` become `Option`, JavaScript truthiness of strings is
modelled explicitly, `JSON.parse` is modelled by an executable
recursive-descent parser over an inductive JSON value type (numbers keep
their lexeme, which suffices because the component never inspects numeric
values), and the thrown-exception paths inside `try`/`catch` are modelled
as `Option`.
-/

namespace CsvImportBox

/-- JSON values, as produced by `JSON.parse`.  Numbers keep their source
lexeme: the component never inspects numeric values, only parseability. -/
inductive Json where
  | null : Json
  | bool : Bool → Json
  | num : String → Json
  | str : String → Json
  | arr : List Json → Json
  | obj : List (String × Json) → Json

/-- JSON whitespace accepted by `JSON.parse`. -/
def isJsonWs (c : Char) : Bool :=
  c == ' ' || c == '\t' || c == '\n' || c == '\r'

/-- Drop leading JSON whitespace. -/
def skipWs : List Char → List Char
  | [] => []
  | c :: cs => if isJsonWs c then skipWs cs else c :: cs

/-- Value of a hexadecimal digit, if any. -/
def hexVal? (c : Char) : Option Nat :=
  if '0' ≤ c ∧ c ≤ '9' then some (c.toNat - '0'.toNat)
  else if 'a' ≤ c ∧ c ≤ 'f' then some (c.toNat - 'a'.toNat + 10)
  else if 'A' ≤ c ∧ c ≤ 'F' then some (c.toNat - 'A'.toNat + 10)
  else none

/-- Translation of a single-character JSON string escape (after the
backslash), excluding the `u` form. -/
def escTrans (e : Char) : Option Char :=
  if e == '"' then some '"'
  else if e == '\\' then some '\\'
  else if e == '/' then some '/'
  else if e == 'b' then some (Char.ofNat 8)
  else if e == 'f' then some (Char.ofNat 12)
  else if e == 'n' then some '\n'
  else if e == 'r' then some (Char.ofNat 13)
  else if e == 't' then some '\t'
  else none

/-- Parse the body of a JSON string (the opening quote already consumed),
returning the decoded string and the remaining input.  Raw control
characters are rejected, as `JSON.parse` does.  The fuel only bounds the
recursion; every step consumes at least one character, so a fuel exceeding
the input length never runs out. -/
def parseStringAux (fuel : Nat) (acc : List Char) (cs : List Char) :
    Option (String × List Char) :=
  match fuel with
  | 0 => none
  | fuel' + 1 =>
    match cs with
    | [] => none
    | c :: cs1 =>
      if c == '"' then some (String.mk acc.reverse, cs1)
      else if c == '\\' then
        match cs1 with
        | [] => none
        | e :: cs2 =>
          if e == 'u' then
            match cs2 with
            | h1 :: h2 :: h3 :: h4 :: cs3 =>
              match hexVal? h1, hexVal? h2, hexVal? h3, hexVal? h4 with
              | some a, some b, some c2, some d =>
                parseStringAux fuel' (Char.ofNat (((a * 16 + b) * 16 + c2) * 16 + d) :: acc) cs3
              | _, _, _, _ => none
            | _ => none
          else
            match escTrans e with
            | some ec => parseStringAux fuel' (ec :: acc) cs2
            | none => none
      else if c.toNat < 32 then none
      else parseStringAux fuel' (c :: acc) cs1

/-- Take a maximal prefix of decimal digits. -/
def takeDigits : List Char → List Char × List Char
  | [] => ([], [])
  | c :: cs =>
    if c.isDigit then
      let (ds, r) := takeDigits cs
      (c :: ds, r)
    else ([], c :: cs)

/-- Parse an optional JSON fraction part (`.digits`). -/
def parseFrac (cs : List Char) : Option (List Char × List Char) :=
  match cs with
  | '.' :: t =>
    match takeDigits t with
    | ([], _) => none
    | (ds, t2) => some ('.' :: ds, t2)
  | _ => some ([], cs)

/-- Parse an optional JSON exponent part (`[eE][+-]?digits`). -/
def parseExpPart (cs : List Char) : Option (List Char × List Char) :=
  match cs with
  | [] => some ([], [])
  | e :: t =>
    if e == 'e' || e == 'E' then
      let (sgn, t1) :=
        match t with
        | '+' :: u => (['+'], u)
        | '-' :: u => (['-'], u)
        | _ => ([], t)
      match takeDigits t1 with
      | ([], _) => none
      | (ds, t2) => some (e :: (sgn ++ ds), t2)
    else some ([], cs)

/-- Parse a JSON number starting at the head of `cs`, returning its lexeme.
Grammar: `-? (0 | [1-9][0-9]*) frac? exp?`. -/
def parseNumberLex (cs : List Char) : Option (String × List Char) :=
  let (sgn, cs1) :=
    match cs with
    | '-' :: t => (['-'], t)
    | _ => ([], cs)
  match cs1 with
  | [] => none
  | d :: t =>
    if d == '0' then
      match parseFrac t with
      | none => none
      | some (f, t2) =>
        match parseExpPart t2 with
        | none => none
        | some (x, t3) => some (String.mk (sgn ++ ['0'] ++ f ++ x), t3)
    else if d.isDigit then
      let (ds, t1) := takeDigits t
      match parseFrac t1 with
      | none => none
      | some (f, t2) =>
        match parseExpPart t2 with
        | none => none
        | some (x, t3) => some (String.mk (sgn ++ (d :: ds) ++ f ++ x), t3)
    else none

mutual

/-- Fueled recursive-descent parser for one JSON value.  The fuel only
bounds recursion depth of the grammar; `parseJson` supplies more fuel than
any input of its length can consume. -/
def parseValueF (fuel : Nat) (cs0 : List Char) : Option (Json × List Char) :=
  match fuel with
  | 0 => none
  | fuel' + 1 =>
    match skipWs cs0 with
    | [] => none
    | c :: cs =>
      if c == 'n' then
        match cs with
        | 'u' :: 'l' :: 'l' :: r => some (Json.null, r)
        | _ => none
      else if c == 't' then
        match cs with
        | 'r' :: 'u' :: 'e' :: r => some (Json.bool true, r)
        | _ => none
      else if c == 'f' then
        match cs with
        | 'a' :: 'l' :: 's' :: 'e' :: r => some (Json.bool false, r)
        | _ => none
      else if c == '"' then
        match parseStringAux (cs.length + 1) [] cs with
        | some (s, r) => some (Json.str s, r)
        | none => none
      else if c == '[' then
        match skipWs cs with
        | ']' :: r => some (Json.arr [], r)
        | cs2 =>
          match parseValueF fuel' cs2 with
          | some (j, r) => parseArrayTailF fuel' [j] r
          | none => none
      else if c == '{' then
        match skipWs cs with
        | '}' :: r => some (Json.obj [], r)
        | cs2 =>
          match parseMemberF fuel' cs2 with
          | some (m, r) => parseObjTailF fuel' [m] r
          | none => none
      else if c == '-' || c.isDigit then
        match parseNumberLex (c :: cs) with
        | some (lexeme, r) => some (Json.num lexeme, r)
        | none => none
      else none

/-- Parse the rest of a JSON array after at least one element. -/
def parseArrayTailF (fuel : Nat) (acc : List Json) (cs : List Char) :
    Option (Json × List Char) :=
  match fuel with
  | 0 => none
  | fuel' + 1 =>
    match skipWs cs with
    | ']' :: r => some (Json.arr acc.reverse, r)
    | ',' :: cs2 =>
      match parseValueF fuel' cs2 with
      | some (j, r) => parseArrayTailF fuel' (j :: acc) r
      | none => none
    | _ => none

/-- Parse one `"key" : value` member of a JSON object. -/
def parseMemberF (fuel : Nat) (cs : List Char) :
    Option ((String × Json) × List Char) :=
  match fuel with
  | 0 => none
  | fuel' + 1 =>
    match skipWs cs with
    | '"' :: cs1 =>
      match parseStringAux (cs1.length + 1) [] cs1 with
      | some (k, cs2) =>
        match skipWs cs2 with
        | ':' :: cs3 =>
          match parseValueF fuel' cs3 with
          | some (v, r) => some ((k, v), r)
          | none => none
        | _ => none
      | none => none
    | _ => none

/-- Parse the rest of a JSON object after at least one member. -/
def parseObjTailF (fuel : Nat) (acc : List (String × Json)) (cs : List Char) :
    Option (Json × List Char) :=
  match fuel with
  | 0 => none
  | fuel' + 1 =>
    match skipWs cs with
    | '}' :: r => some (Json.obj acc.reverse, r)
    | ',' :: cs2 =>
      match parseMemberF fuel' cs2 with
      | some (m, r) => parseObjTailF fuel' (m :: acc) r
      | none => none
    | _ => none

end

/-- Model of `JSON.parse`: parse one value and require only trailing
whitespace; `none` models a thrown `SyntaxError`. -/
def parseJson (s : String) : Option Json :=
  match parseValueF (2 * s.length + 2) s.data with
  | some (j, rest) => if (skipWs rest).isEmpty then some j else none
  | none => none

/-- JavaScript property lookup on a parsed JSON object: the last duplicate
key wins, `none` models `undefined`. -/
def lookupField (fs : List (String × Json)) (k : String) : Option Json :=
  fs.foldl (fun acc p => if p.1 == k then some p.2 else acc) none

/-- The payload of a migration event as consumed by the component:
`{ $id, source, status, resourceId?, errors? }`.  `resourceId` and `errors`
may be absent (`undefined`), hence `Option`. -/
structure Payload where
  id : String
  source : String
  status : String
  resourceId : Option String
  errors : Option (List String)
deriving DecidableEq

/-- One tracked import job: `{ status: string; collection?: string }`. -/
structure ImportItem where
  status : String
  collection : Option String
deriving DecidableEq

/-- The `importItems` store: a JavaScript `Map` keyed by migration id,
modelled as an insertion-ordered association list with unique keys. -/
abbrev ImportMap := List (String × ImportItem)

/-- `Map.get`: value at the key, `none` for `undefined`. -/
def mapGet (items : ImportMap) (k : String) : Option ImportItem :=
  match items.find? (fun p => p.1 == k) with
  | some p => some p.2
  | none => none

/-- `Map.set`: replace in place when the key exists (keeping its position),
otherwise append at the end, as JavaScript `Map` insertion order does. -/
def mapSet (items : ImportMap) (k : String) (v : ImportItem) : ImportMap :=
  if (items.find? (fun p => p.1 == k)).isSome then
    items.map (fun p => if p.1 == k then (k, v) else p)
  else items ++ [(k, v)]

/-- JavaScript truthiness of a `string | null | undefined` value:
truthy iff present and non-empty. -/
def truthyStr : Option String → Bool
  | some s => s != ""
  | none => false

/-- `source.toLowerCase()`, character by character (the comparison target
`csv` is ASCII, for which this agrees with JavaScript). -/
def jsToLower (s : String) : String :=
  String.mk (s.data.map Char.toLower)

/-- JavaScript `String.prototype.split(':')` restricted to the colon
separator: cut at every colon; no colon yields the whole string as a
one-element list, and the empty string yields one empty segment. -/
def splitOnColonAux (cs : List Char) (acc : List Char) : List String :=
  match cs with
  | [] => [String.mk acc.reverse]
  | c :: rest =>
    if c = ':' then String.mk acc.reverse :: splitOnColonAux rest []
    else splitOnColonAux rest (c :: acc)

/-- `resourceId.split(':')` on the characters of the string. -/
def jsSplitColon (s : String) : List String :=
  splitOnColonAux s.data []

/-- Whether a character list contains a colon. -/
def hasColon : List Char → Bool
  | [] => false
  | c :: cs => c == ':' || hasColon cs

/-- Lines 72-73: `const resourceId = importData.resourceId ?? ''` followed by
`const [databaseId, collectionId] = resourceId.split(':')` — array
destructuring takes the first two segments, `undefined` when missing. -/
def parseResourceId (resourceId : Option String) : Option String × Option String :=
  match jsSplitColon (resourceId.getD "") with
  | [] => (none, none)
  | [a] => (some a, none)
  | a :: b :: _ => (some a, some b)

/-- The fixed generic failure message of `showCompletionNotification`. -/
def defaultFailMsg : String :=
  "Import failed. Check your CSV for correct fields and required values."

/-- The fixed success message of `showCompletionNotification`. -/
def successMsg : String := "CSV import finished successfully."

/-- One emitted notification, as passed to `addNotification`:
severity, message (`none` models `undefined`, a non-string JSON value may
appear when a parsed error's `message` field is not a string), the `isHtml`
flag, and whether the `View documents` button is attached. -/
structure Notification where
  ntype : String
  message : Option Json
  isHtml : Bool
  hasButton : Bool

/-- Lines 29-66, `showCompletionNotification(database, collection, payload)`.
`curColl` is `page.params.collection` (the collection currently viewed).
Returns `none` when the early `return` fires (no notification), otherwise
the emitted notification.  The `try`/`catch` around
`JSON.parse(payload.errors[0]).message` is modelled exactly: a parse
failure, a missing first entry (`JSON.parse(undefined)`), or a parse result
of `null` (property access throws a `TypeError`) all fall back to the
default message; property access on any other non-object JSON value yields
`undefined`. -/
def showCompletionNotification (curColl : Option String) (collection : Option String)
    (payload : Payload) : Option Notification :=
  let isSuccess := payload.status == "completed"
  let isError := !isSuccess && payload.errors.isSome
  if !isSuccess && !isError then none
  else
    let errorMessage : Option Json :=
      if isError && payload.errors.isSome then
        match payload.errors.bind List.head? with
        | none => some (Json.str defaultFailMsg)
        | some e0 =>
          match parseJson e0 with
          | none => some (Json.str defaultFailMsg)
          | some Json.null => some (Json.str defaultFailMsg)
          | some (Json.obj fs) => lookupField fs "message"
          | some _ => none
      else some (Json.str defaultFailMsg)
    let ntype := if isSuccess then "success" else "error"
    let message := if isError then errorMessage else some (Json.str successMsg)
    let hasButton := isSuccess && !(collection == curColl)
    some ⟨ntype, message, true, hasButton⟩

/-- `s === 'completed' || s === 'failed'` (line 92). -/
def isDone (s : String) : Bool := s == "completed" || s == "failed"

/-- `['pending', 'processing', 'uploading'].includes(s)` (line 93). -/
def isInProgress (s : String) : Bool :=
  s == "pending" || s == "processing" || s == "uploading"

/-- Lines 89-104: the `importItems.update` callback.  Skips the write when
the existing entry is terminal and the incoming status is in-progress, or
when the incoming status equals the existing one; otherwise writes
`{ status, collection: collectionName ?? undefined }`. -/
def applyUpdate (items : ImportMap) (id status : String)
    (collectionName : Option String) : ImportMap :=
  let existing := mapGet items id
  let shouldSkip :=
    (match existing with
     | some e => isDone e.status && isInProgress status
     | none => false) ||
    (match existing with
     | some e => e.status == status
     | none => false)
  if shouldSkip then items else mapSet items id ⟨status, collectionName⟩

/-- The result of one `updateOrAddItem` call: the new registry, whether
`showCompletionNotification` was invoked, and what it emitted. -/
structure StepResult where
  items : ImportMap
  notifyCalled : Bool
  emitted : Option Notification

/-- Lines 68-109, `updateOrAddItem(importData)`.  `resolve` models the
external `getCollection` directory lookup (`none` models the `catch` branch
setting `collectionName = null`); `curColl` is `page.params.collection`.
The lookup runs only when no collection name is stored yet (falsy) and a
truthy `collectionId` was parsed.  After the registry update, the
completion notification is triggered whenever the incoming status is
terminal — independently of whether the write was skipped. -/
def updateOrAddItem (resolve : String → String → Option String)
    (curColl : Option String) (items : ImportMap) (d : Payload) : StepResult :=
  if jsToLower d.source != "csv" then ⟨items, false, none⟩
  else
    let status := d.status
    let pr := parseResourceId d.resourceId
    let databaseId := pr.1
    let collectionId := pr.2
    let current := mapGet items d.id
    let collectionName0 := current.bind ImportItem.collection
    let collectionName :=
      if !truthyStr collectionName0 && truthyStr collectionId then
        resolve (databaseId.getD "") (collectionId.getD "")
      else collectionName0
    let items2 := applyUpdate items d.id status collectionName
    if status == "completed" || status == "failed" then
      ⟨items2, true, showCompletionNotification curColl collectionId d⟩
    else ⟨items2, false, none⟩

/-- Lines 118-132, `graphSize(status)`: the progress percentage. -/
def graphSize (status : String) : Nat :=
  match status with
  | "pending" => 10
  | "processing" => 30
  | "uploading" => 60
  | "completed" => 100
  | "failed" => 100
  | _ => 30

/-- Lines 134-145, `text(status, collectionName = '')`: the row label.
The call site passes the possibly-undefined stored collection name, which
the default parameter turns into the empty string. -/
def text (status : String) (collectionName : Option String) : String :=
  let cn := collectionName.getD ""
  let name := if cn != "" then "<b>" ++ cn ++ "</b>" else ""
  match status with
  | "completed" => "Import to " ++ name ++ " " ++ status
  | "failed" => "Import to " ++ name ++ " " ++ status
  | "processing" => "Importing CSV file" ++ (if name != "" then " to " ++ name else "")
  | _ => "Preparing CSV for import..."

/-- The progress mapping as the specification states it (section 4.1):
pending 10, processing 30, uploading 60, completed 100, failed 100, any
unknown value 30. -/
def progressPercent_spec (status : String) : Nat :=
  if status = "pending" then 10
  else if status = "processing" then 30
  else if status = "uploading" then 60
  else if status = "completed" then 100
  else if status = "failed" then 100
  else 30

/-- The row label as the specification states it: for terminal states,
the template `Import to **collection** status` with the collection clause
omitted when the name is unknown; for `processing`,
`Importing CSV file to **collection**` with the clause omitted when the
name is unknown; a generic preparing message otherwise. -/
def describe_spec (status : String) (collectionName : Option String) : String :=
  let known := truthyStr collectionName
  let clause := if known then "<b>" ++ collectionName.getD "" ++ "</b>" else ""
  if status = "completed" ∨ status = "failed" then
    "Import to " ++ clause ++ " " ++ status
  else if status = "processing" then
    if known then "Importing CSV file to " ++ clause else "Importing CSV file"
  else "Preparing CSV for import..."

/-- A directory lookup that always fails (every `getCollection` call
rejects). -/
def noResolve : String → String → Option String := fun _ _ => none

/-- A directory lookup that always resolves to the collection name
`Users`. -/
def usersResolve : String → String → Option String := fun _ _ => some "Users"

/-! ## Helper lemmas -/

theorem splitOnColonAux_length_pos (cs acc : List Char) :
    1 ≤ (splitOnColonAux cs acc).length := by
  induction cs generalizing acc with
  | nil => simp [splitOnColonAux]
  | cons c rest ih =>
    unfold splitOnColonAux
    by_cases hc : c = ':'
    · rw [if_pos hc]
      simp only [List.length_cons]
      omega
    · rw [if_neg hc]
      exact ih (c :: acc)

theorem splitOnColonAux_no_colon (cs acc : List Char) (h : hasColon cs = false) :
    splitOnColonAux cs acc = [String.mk (acc.reverse ++ cs)] := by
  induction cs generalizing acc with
  | nil => simp [splitOnColonAux]
  | cons c rest ih =>
    simp only [hasColon, Bool.or_eq_false_iff, beq_eq_false_iff_ne, ne_eq] at h
    unfold splitOnColonAux
    rw [if_neg h.1, ih (c :: acc) h.2]
    simp [List.append_assoc]

theorem splitOnColonAux_two_le_of_colon (cs acc : List Char) (h : hasColon cs = true) :
    2 ≤ (splitOnColonAux cs acc).length := by
  induction cs generalizing acc with
  | nil => simp [hasColon] at h
  | cons c rest ih =>
    unfold splitOnColonAux
    by_cases hc : c = ':'
    · have hpos := splitOnColonAux_length_pos rest ([] : List Char)
      rw [if_pos hc]
      simp only [List.length_cons]
      omega
    · have h2 : hasColon rest = true := by simpa [hasColon, hc] using h
      simpa [hc] using ih (c :: acc) h2

theorem bold_wrap_ne_empty (x : String) : ("<b>" ++ x ++ "</b>") ≠ "" := by
  intro h
  have hlen : ("<b>" ++ x ++ "</b>").length = 0 := by rw [h]; rfl
  rw [String.length_append, String.length_append] at hlen
  have h3 : ("<b>" : String).length = 3 := rfl
  rw [h3] at hlen
  omega

theorem importing_to_append (b : String) :
    "Importing CSV file" ++ (" to " ++ b) = "Importing CSV file to " ++ b := by
  cases b with
  | mk d => rfl

theorem applyUpdate_eq_of_skip (items : ImportMap) (id status : String)
    (cn : Option String) (it : ImportItem) (hget : mapGet items id = some it)
    (hskip : (isDone it.status && isInProgress status || it.status == status) = true) :
    applyUpdate items id status cn = items := by
  unfold applyUpdate
  rw [hget]
  simp [hskip]

/-! ## Claims -/

/-- C1, counterexample: the claim says a terminal entry accepts no further
transitions at all, but after a `completed` event, a `failed` event for the
same id overwrites the entry (the skip rule only blocks in-progress
statuses and identical statuses). -/
theorem c1_counterexample :
    mapGet (updateOrAddItem noResolve none [] ⟨"m1", "csv", "completed", none, none⟩).items "m1"
      = some ⟨"completed", none⟩ ∧
    mapGet (updateOrAddItem noResolve none
        (updateOrAddItem noResolve none [] ⟨"m1", "csv", "completed", none, none⟩).items
        ⟨"m1", "csv", "failed", none, none⟩).items "m1"
      = some ⟨"failed", none⟩ :=
  ⟨rfl, rfl⟩

/-- C1 (amended): once the registry holds a terminal entry (`completed` or
`failed`) for an id, an event for that id reporting an in-progress status
(`pending`, `processing`, `uploading`) or the identical status leaves the
registry unchanged; an event reporting the other terminal status or an
unrecognized status string is, however, accepted and overwrites the
entry. -/
theorem c1_terminal_rejects_stale (resolve : String → String → Option String)
    (curColl : Option String) (items : ImportMap) (d : Payload) (it : ImportItem)
    (hget : mapGet items d.id = some it) (hdone : isDone it.status = true)
    (hst : isInProgress d.status = true ∨ d.status = it.status) :
    (updateOrAddItem resolve curColl items d).items = items := by
  have hskip : (isDone it.status && isInProgress d.status || it.status == d.status) = true := by
    rcases hst with h | h
    · simp [hdone, h]
    · simp [h]
  have happ : ∀ cn, applyUpdate items d.id d.status cn = items :=
    fun cn => applyUpdate_eq_of_skip items d.id d.status cn it hget hskip
  unfold updateOrAddItem
  split
  · rfl
  · simp only [happ]
    split <;> rfl

/-- C1, witness: a `processing` event for an id already `completed` leaves
the registry unchanged. -/
theorem c1_witness :
    (updateOrAddItem noResolve none [("m1", ⟨"completed", none⟩)]
        ⟨"m1", "csv", "processing", none, none⟩).items
      = [("m1", ⟨"completed", none⟩)] :=
  c1_terminal_rejects_stale noResolve none _ _ ⟨"completed", none⟩ rfl rfl (Or.inl rfl)

/-- C2, counterexample: the claim says the notification routine fires at
most once per id for repeated identical terminal events; in fact two
identical `completed` events invoke it twice — the skip rule suppresses
the registry write of the second event but not its notification call. -/
theorem c2_counterexample :
    (updateOrAddItem noResolve none [] ⟨"m1", "csv", "completed", none, none⟩).notifyCalled
      = true ∧
    (updateOrAddItem noResolve none
        (updateOrAddItem noResolve none [] ⟨"m1", "csv", "completed", none, none⟩).items
        ⟨"m1", "csv", "completed", none, none⟩).notifyCalled = true ∧
    (updateOrAddItem noResolve none
        (updateOrAddItem noResolve none [] ⟨"m1", "csv", "completed", none, none⟩).items
        ⟨"m1", "csv", "completed", none, none⟩).items
      = (updateOrAddItem noResolve none [] ⟨"m1", "csv", "completed", none, none⟩).items :=
  ⟨rfl, rfl, rfl⟩

/-- C2 (amended): the completion-notification routine is invoked on an
event exactly when the event passes the source filter and carries a
terminal status — independently of the skip rule, so repeated identical
terminal events each trigger it again. -/
theorem c2_notify_on_every_terminal_event (resolve : String → String → Option String)
    (curColl : Option String) (items : ImportMap) (d : Payload) :
    ((updateOrAddItem resolve curColl items d).notifyCalled = true) ↔
    (jsToLower d.source = "csv" ∧ (d.status = "completed" ∨ d.status = "failed")) := by
  by_cases hsrc : jsToLower d.source = "csv"
  · by_cases hterm : (d.status == "completed" || d.status == "failed") = true
    · simp only [Bool.or_eq_true, beq_iff_eq] at hterm
      simp [updateOrAddItem, hsrc, hterm]
    · simp only [Bool.or_eq_true, beq_iff_eq, not_or] at hterm
      simp [updateOrAddItem, hsrc, hterm.1, hterm.2]
  · simp [updateOrAddItem, hsrc]

/-- C3, counterexample: the claim allows a same-status event to write a
newly resolved collection name; in fact a `pending` event carrying a
resolvable `db1:col1` reference for an id already `pending` with unknown
collection is skipped entirely and the name stays unknown. -/
theorem c3_counterexample :
    (updateOrAddItem usersResolve none [("m1", ⟨"pending", none⟩)]
        ⟨"m1", "csv", "pending", some "db1:col1", none⟩).items
      = [("m1", ⟨"pending", none⟩)] ∧
    usersResolve "db1" "col1" = some "Users" :=
  ⟨rfl, rfl⟩

/-- C3 (amended): an event reporting the identical status as the stored
entry always leaves the registry unchanged, with no exception — a newly
resolved collection name is discarded; the name refinement can only reach
the registry through a write triggered by a status change. -/
theorem c3_same_status_always_skipped (resolve : String → String → Option String)
    (curColl : Option String) (items : ImportMap) (d : Payload) (it : ImportItem)
    (hget : mapGet items d.id = some it) (hst : d.status = it.status) :
    (updateOrAddItem resolve curColl items d).items = items := by
  have hskip : (isDone it.status && isInProgress d.status || it.status == d.status) = true := by
    simp [hst]
  have happ : ∀ cn, applyUpdate items d.id d.status cn = items :=
    fun cn => applyUpdate_eq_of_skip items d.id d.status cn it hget hskip
  unfold updateOrAddItem
  split
  · rfl
  · simp only [happ]
    split <;> rfl

/-- C3, witness: a duplicate `pending` event (even one carrying a
resolvable collection reference) leaves the registry unchanged. -/
theorem c3_witness :
    (updateOrAddItem usersResolve none [("m2", ⟨"pending", none⟩)]
        ⟨"m2", "csv", "pending", some "db1:col1", none⟩).items
      = [("m2", ⟨"pending", none⟩)] :=
  c3_same_status_always_skipped usersResolve none _ _ ⟨"pending", none⟩ rfl rfl

/-- C4, counterexample: the claim says a non-success payload with no error
entries emits nothing; in fact an errors field holding zero entries is
still truthy, so a `processing` payload with `errors: []` does emit a
notification. -/
theorem c4_counterexample :
    (showCompletionNotification none none ⟨"m1", "csv", "processing", none, some []⟩).isSome
      = true :=
  rfl

/-- C4 (amended): the completion-notification routine emits a notification
iff the status equals `completed`, or the status differs from `completed`
and the `errors` field is present — even when that field holds zero
entries. -/
theorem c4_notify_iff_success_or_errors_present (curColl collection : Option String)
    (p : Payload) :
    ((showCompletionNotification curColl collection p).isSome = true) ↔
    (p.status = "completed" ∨ p.errors.isSome = true) := by
  by_cases hs : p.status = "completed"
  · simp [showCompletionNotification, hs]
  · cases herr : p.errors with
    | none => simp [showCompletionNotification, hs, herr]
    | some es => simp [showCompletionNotification, hs, herr]

/-- C5: `graphSize` (the spec's `progressPercent`) is a pure total function
on status strings returning 10 for `pending`, 30 for `processing`, 60 for
`uploading`, 100 for `completed` and `failed`, and 30 for every other
input string. -/
theorem c5_graphSize_matches_spec (s : String) : graphSize s = progressPercent_spec s := by
  unfold graphSize progressPercent_spec
  split <;> simp_all

/-- C6: the row-label function `text` (the spec's `describe`) is
deterministic and matches the specified templates: for terminal states
`Import to **collection** status` with the collection clause omitted when
the name is unknown, for `processing` the importing template with the
clause omitted when unknown, and a generic preparing message otherwise. -/
theorem c6_text_matches_spec (s : String) (c : Option String) :
    text s c = describe_spec s c := by
  cases c with
  | none =>
    unfold text describe_spec truthyStr
    split <;> simp_all
  | some x =>
    by_cases hx : x = ""
    · unfold text describe_spec truthyStr
      split <;> simp_all [hx]
    · unfold text describe_spec truthyStr
      split <;> simp_all [hx, bold_wrap_ne_empty, importing_to_append]

/-- C7: for a failed payload whose first error entry does not parse as
JSON, the emitted notification carries the fixed generic failure
message. -/
theorem c7_unparseable_error_falls_back (curColl collection : Option String)
    (p : Payload) (e0 : String) (rest : List String)
    (hst : p.status = "failed") (herr : p.errors = some (e0 :: rest))
    (hparse : parseJson e0 = none) :
    showCompletionNotification curColl collection p
      = some ⟨"error", some (Json.str defaultFailMsg), true, false⟩ := by
  simp [showCompletionNotification, hst, herr, hparse]

/-- C7, witness: a failed payload with first error entry `not json` emits
the generic failure message. -/
theorem c7_witness :
    showCompletionNotification none none ⟨"m1", "csv", "failed", none, some ["not json"]⟩
      = some ⟨"error", some (Json.str defaultFailMsg), true, false⟩ :=
  c7_unparseable_error_falls_back none none _ "not json" [] rfl rfl rfl

/-- C8, counterexample: the claim says an absent or malformed `resourceId`
makes both ids undefined; in fact the absent case yields the empty string
(not undefined) for `databaseId`, and a colon-free `resourceId` yields the
whole string for `databaseId` — only `collectionId` is undefined. -/
theorem c8_counterexample :
    parseResourceId none = (some "", none) ∧
    (parseResourceId none).1 ≠ none ∧
    parseResourceId (some "db1") = (some "db1", none) :=
  ⟨rfl, by decide, rfl⟩

/-- C8 (amended): splitting `resourceId ?? ''` on colons always yields a
defined `databaseId` (the first segment, possibly empty), and
`collectionId` is undefined exactly when the defaulted `resourceId`
contains no colon. -/
theorem c8_split_segments (r : Option String) :
    ((parseResourceId r).1.isSome = true) ∧
    ((parseResourceId r).2 = none ↔ hasColon ((r.getD "").data) = false) := by
  unfold parseResourceId
  rcases hsplit : jsSplitColon (r.getD "") with _ | ⟨a, _ | ⟨b, rest2⟩⟩
  · have hpos := splitOnColonAux_length_pos ((r.getD "").data) ([] : List Char)
    unfold jsSplitColon at hsplit
    rw [hsplit] at hpos
    simp at hpos
  · refine ⟨rfl, ?_⟩
    cases hcol : hasColon ((r.getD "").data) with
    | false => simp
    | true =>
      have h2 := splitOnColonAux_two_le_of_colon ((r.getD "").data) ([] : List Char) hcol
      unfold jsSplitColon at hsplit
      rw [hsplit] at h2
      simp at h2
  · refine ⟨rfl, ?_⟩
    cases hcol : hasColon ((r.getD "").data) with
    | true => simp
    | false =>
      have h1 := splitOnColonAux_no_colon ((r.getD "").data) ([] : List Char) hcol
      unfold jsSplitColon at hsplit
      rw [hsplit] at h1
      simp at h1

/-- C9: an event whose source is not `csv` (case-insensitively) leaves the
registry untouched and triggers no notification. -/
theorem c9_non_csv_event_is_noop (resolve : String → String → Option String)
    (curColl : Option String) (items : ImportMap) (d : Payload)
    (h : jsToLower d.source ≠ "csv") :
    updateOrAddItem resolve curColl items d = ⟨items, false, none⟩ := by
  simp [updateOrAddItem, h]

/-- C9, witness: a `completed` event with source `appwrite` changes nothing
and notifies nobody. -/
theorem c9_witness :
    updateOrAddItem noResolve none [] ⟨"m1", "appwrite", "completed", none, none⟩
      = ⟨[], false, none⟩ :=
  c9_non_csv_event_is_noop noResolve none [] _ (by decide)

/-- C10: for a failed payload whose first error entry parses as a JSON
object without a `message` field, the notification is emitted with the
undefined `message` value, not with the generic fallback. -/
theorem c10_missing_message_field_undefined (curColl collection : Option String)
    (p : Payload) (e0 : String) (rest : List String) (fs : List (String × Json))
    (hst : p.status = "failed") (herr : p.errors = some (e0 :: rest))
    (hparse : parseJson e0 = some (Json.obj fs))
    (hmsg : lookupField fs "message" = none) :
    showCompletionNotification curColl collection p = some ⟨"error", none, true, false⟩ := by
  simp [showCompletionNotification, hst, herr, hparse, hmsg]

/-- C10, witness: a failed payload whose first error entry is the JSON
object with single field `code` emits a notification whose message is
undefined. -/
theorem c10_witness :
    showCompletionNotification none none
        ⟨"m1", "csv", "failed", none, some ["\x7b\"code\":1\x7d"]⟩
      = some ⟨"error", none, true, false⟩ :=
  c10_missing_message_field_undefined none none _ "\x7b\"code\":1\x7d" []
    [("code", Json.num "1")] rfl rfl rfl rfl

end CsvImportBox
